import Mathlib

/-!
Shallow embedding of the velox memory-arbitration participant
(velox/common/memory/ArbitrationParticipant.cpp) and of the hash-join build
operator (velox/exec/HashBuild.cpp), together with theorems settling the
specification claims about them.

Machine integers (`uint64_t`) are modelled as `Nat`; every subtraction in the
embedded code is guarded by the same comparison the C++ performs, so truncated
`Nat` subtraction agrees with the source on all guarded paths.  C++ `double`
configuration ratios are modelled exactly as nonnegative rationals `num/den`;
`static_cast<uint64_t>(x * ratio)` on a nonnegative product truncates toward
zero, which is `Nat` division here.
-/

namespace Velox

/-- A nonnegative C++ `double` configuration ratio, represented exactly as a
fraction `num/den`. -/
structure Ratio where
  num : Nat
  den : Nat
deriving DecidableEq

/-- `static_cast<uint64_t>(c * r)` for a capacity `c` and a nonnegative ratio
`r`: the product truncated toward zero, i.e. `c * num / den` in `Nat`. -/
def ratioMul (c : Nat) (r : Ratio) : Nat :=
  c * r.num / r.den

/-- The observable state of a `MemoryPool` (an external collaborator of the
arbitration participant): capacity, free/reserved/peak bytes, the optional
`reclaimableBytes()` report, and the abort flag with the recorded error. -/
structure MemoryPoolState where
  capacity : Nat
  freeBytes : Nat
  reservedBytes : Nat
  peakBytes : Nat
  reclaimableBytes : Option Nat
  aborted : Bool
  abortError : Option Nat
deriving DecidableEq

/-- `ArbitrationParticipant::Config` (the three `double` fields are ratios). -/
structure Config where
  initCapacity : Nat
  minCapacity : Nat
  fastExponentialGrowthCapacityLimit : Nat
  slowCapacityGrowRatio : Ratio
  minFreeCapacity : Nat
  minFreeCapacityRatio : Ratio
  minReclaimBytes : Nat
  minReclaimPct : Ratio
deriving DecidableEq

/-- The state of an `ArbitrationParticipant`: its config, the max capacity
recorded at construction, the pool state, the aborted flag, the stats
counters, and the admission-control state (running op and FIFO wait queue,
operations identified by numeric ids). -/
structure Participant where
  config : Config
  maxCapacity : Nat
  pool : MemoryPoolState
  aborted : Bool
  numRequests : Nat
  numReclaims : Nat
  numShrinks : Nat
  numGrows : Nat
  reclaimedBytes : Nat
  growBytes : Nat
  runningOp : Option Nat
  waitOps : List Nat
deriving DecidableEq

/-- `ArbitrationParticipant::inactivePool()`: the pool is inactive when
`reservedBytes() == 0 && peakBytes() != 0`. -/
def inactivePool (p : Participant) : Bool :=
  p.pool.reservedBytes == 0 && p.pool.peakBytes != 0

/-- `ArbitrationParticipant::maxGrowCapacity()` = `maxCapacity_ - capacity`.
The `VELOX_CHECK_LE(capacity, maxCapacity_)` guard appears as a hypothesis of
the theorems that use this function. -/
def maxGrowCapacity (p : Participant) : Nat :=
  p.maxCapacity - p.pool.capacity

/-- `ArbitrationParticipant::minGrowCapacity()`: `0` when the capacity already
meets `minCapacity`, else the missing amount. -/
def minGrowCapacity (p : Participant) : Nat :=
  if p.config.minCapacity ≤ p.pool.capacity then 0
  else p.config.minCapacity - p.pool.capacity

/-- `ArbitrationParticipant::maxReclaimableCapacity()`: the full capacity for
an inactive pool, otherwise the capacity above `minCapacity` (0 when below). -/
def maxReclaimableCapacity (p : Participant) : Nat :=
  if inactivePool p then p.pool.capacity
  else if p.pool.capacity < p.config.minCapacity then 0
  else p.pool.capacity - p.config.minCapacity

/-- `ArbitrationParticipant::maxShrinkCapacity()`: when `minFreeCapacity` is
configured and the pool is active, the free bytes above
`std::min(capacity * minFreeCapacityRatio, minFreeCapacity)`; otherwise all
free bytes. -/
def maxShrinkCapacity (p : Participant) : Nat :=
  if p.config.minFreeCapacity ≠ 0 ∧ inactivePool p = false then
    let minFreeBytes :=
      min (ratioMul p.pool.capacity p.config.minFreeCapacityRatio)
        p.config.minFreeCapacity
    if p.pool.freeBytes ≤ minFreeBytes then 0
    else p.pool.freeBytes - minFreeBytes
  else p.pool.freeBytes

/-- The same function as the SPEC words it, for comparison with the source:
the spec claims the shrink floor is `max(minFreeCapacity,
capacity * minFreeCapacityRatio)` where the source computes the `min`. -/
def maxShrinkCapacitySpecMax (p : Participant) : Nat :=
  if p.config.minFreeCapacity ≠ 0 ∧ inactivePool p = false then
    let minFreeBytes :=
      max (ratioMul p.pool.capacity p.config.minFreeCapacityRatio)
        p.config.minFreeCapacity
    if p.pool.freeBytes ≤ minFreeBytes then 0
    else p.pool.freeBytes - minFreeBytes
  else p.pool.freeBytes

/-- `ArbitrationParticipant::reclaimableFreeCapacity()`. -/
def reclaimableFreeCapacity (p : Participant) : Nat :=
  min (maxShrinkCapacity p) (maxReclaimableCapacity p)

/-- `ArbitrationParticipant::reclaimableUsedCapacity()`:
`std::min(maxReclaimableCapacity(), reclaimableBytes.value_or(0))`. -/
def reclaimableUsedCapacity (p : Participant) : Nat :=
  min (maxReclaimableCapacity p) (p.pool.reclaimableBytes.getD 0)

/-- The validity conditions `ArbitrationParticipant::Config`'s constructor
enforces with `VELOX_CHECK`s (ratio denominators are positive so the rational
embedding of the doubles is meaningful). -/
def Config.valid (c : Config) : Prop :=
  0 < c.slowCapacityGrowRatio.den ∧
  0 < c.minFreeCapacityRatio.den ∧
  0 < c.minReclaimPct.den ∧
  (c.fastExponentialGrowthCapacityLimit = 0 ↔ c.slowCapacityGrowRatio.num = 0) ∧
  (c.minFreeCapacity = 0 ↔ c.minFreeCapacityRatio.num = 0) ∧
  c.minFreeCapacityRatio.num ≤ c.minFreeCapacityRatio.den ∧
  c.minReclaimPct.num ≤ c.minReclaimPct.den

instance (c : Config) : Decidable c.valid := by
  unfold Config.valid; infer_instance

/-- `ArbitrationParticipant::getGrowTargets(requestBytes, maxGrowBytes,
minGrowBytes)`.  Returns `some (maxGrowBytes, minGrowBytes)`, or `none` when
one of the two trailing `VELOX_CHECK_LE` assertions fires (in C++ that throws
out of the call). -/
def getGrowTargets (p : Participant) (requestBytes : Nat) :
    Option (Nat × Nat) :=
  let capacity := p.pool.capacity
  let maxGrow0 : Nat :=
    if p.config.fastExponentialGrowthCapacityLimit = 0 ∧
        p.config.slowCapacityGrowRatio.num = 0 then
      requestBytes
    else if capacity * 2 ≤ p.config.fastExponentialGrowthCapacityLimit then
      capacity
    else
      ratioMul capacity p.config.slowCapacityGrowRatio
  let maxGrow1 := max requestBytes maxGrow0
  let minGrowBytes := minGrowCapacity p
  let maxGrow2 := max maxGrow1 minGrowBytes
  let maxGrowBytes := min (maxGrowCapacity p) maxGrow2
  if minGrowBytes ≤ maxGrowBytes ∧ requestBytes ≤ maxGrowBytes then
    some (maxGrowBytes, minGrowBytes)
  else none

/-- `ArbitrationParticipant::startArbitration(op)`: bumps `numRequests_`; if an
operation is already running, the new operation is appended to the FIFO
`waitOps_` queue and the caller blocks on its wait promise (second component
`true`); otherwise it becomes the running operation at once (`false`). -/
def startArbitration (p : Participant) (op : Nat) : Participant × Bool :=
  let p' := { p with numRequests := p.numRequests + 1 }
  match p'.runningOp with
  | some _ => ({ p' with waitOps := p'.waitOps ++ [op] }, true)
  | none => ({ p' with runningOp := some op }, false)

/-- `ArbitrationParticipant::finishArbitration(op)`: `none` when the
`VELOX_CHECK_EQ(op, runningOp_)` fails; otherwise promotes the front of the
wait queue to running (resolving its promise - the resumed op is the second
component) or clears `runningOp_` when the queue is empty. -/
def finishArbitration (p : Participant) (op : Nat) :
    Option (Participant × Option Nat) :=
  if p.runningOp = some op then
    match p.waitOps with
    | [] => some ({ p with runningOp := none }, none)
    | w :: rest => some ({ p with runningOp := some w, waitOps := rest }, some w)
  else none

/-- Finishing the currently running operation, whichever it is. -/
def finishCurrent (p : Participant) : Option (Participant × Option Nat) :=
  match p.runningOp with
  | some op => finishArbitration p op
  | none => none

/-- Iterate `finishCurrent` `n` times. -/
def finishSteps (p : Participant) : Nat → Option Participant
  | 0 => some p
  | n + 1 => (finishCurrent p).bind fun r => finishSteps r.1 n

/-- The operation resumed (promoted from the wait queue) by the `(k+1)`-th
successive `finishArbitration` call, if any. -/
def resumedOp (p : Participant) (k : Nat) : Option Nat :=
  (finishSteps p k).bind fun q => (finishCurrent q).bind fun r => r.2

/-- Exceptions observable inside `ArbitrationParticipant::reclaim`: the
timed-lock timeout, or an error propagating out of the pool's reclaim or
shrink callbacks. -/
inductive Exc where
  | arbitrationTimeout
  | poolError (code : Nat)
deriving DecidableEq

/-- Abstract error value stored on the pool by `MemoryPool::abort`.  Errors
are encoded as `Nat`: the timeout is `0`, pool error `code` is `code + 1`. -/
def Exc.code : Exc → Nat
  | .arbitrationTimeout => 0
  | .poolError c => c + 1

/-- Modelled from the spec: `MemoryPool::shrink(target) → bytes` (spec §6 and
§4.1); the pool source is not part of this snapshot.  Shrinking releases all
free bytes when `target == 0`, otherwise at most `target` of them, reducing
the pool capacity by the released amount and returning it. -/
def MemoryPoolState.shrink (pool : MemoryPoolState) (target : Nat) :
    Nat × MemoryPoolState :=
  let delta := if target = 0 then pool.freeBytes else min target pool.freeBytes
  (delta,
    { pool with
      capacity := pool.capacity - delta
      freeBytes := pool.freeBytes - delta })

/-- Modelled from the spec: `MemoryPool::abort(exception)` (spec §6); the pool
source is not part of this snapshot.  Marks the pool aborted and records the
propagated error. -/
def MemoryPoolState.abortPool (pool : MemoryPoolState) (e : Exc) :
    MemoryPoolState :=
  { pool with aborted := true, abortError := some e.code }

/-- `ArbitrationParticipant::shrinkLocked(reclaimAll)`: bumps `numShrinks_`,
shrinks the pool to target `0` (everything) when `reclaimAll`, otherwise by
`reclaimableFreeCapacity()` when that is positive, and accumulates
`reclaimedBytes_`. -/
def shrinkLocked (p : Participant) (reclaimAll : Bool) : Nat × Participant :=
  let p' := { p with numShrinks := p.numShrinks + 1 }
  if reclaimAll then
    let r := p'.pool.shrink 0
    (r.1, { p' with pool := r.2, reclaimedBytes := p'.reclaimedBytes + r.1 })
  else
    let target := reclaimableFreeCapacity p'
    if 0 < target then
      let r := p'.pool.shrink target
      (r.1, { p' with pool := r.2, reclaimedBytes := p'.reclaimedBytes + r.1 })
    else
      (0, p')

/-- `ArbitrationParticipant::abortLocked(error)`: a no-op returning `0` when
already aborted; otherwise marks the participant aborted, aborts the pool with
the error, and force-shrinks everything (`shrinkLocked(reclaimAll=true)`),
returning the capacity that releases. -/
def abortLocked (p : Participant) (e : Exc) : Nat × Participant :=
  if p.aborted then (0, p)
  else
    let p1 := { p with aborted := true }
    let p2 := { p1 with pool := p1.pool.abortPool e }
    shrinkLocked p2 true

/-- `ArbitrationParticipant::abort(error)`: takes the reclaim lock and runs
`abortLocked`. -/
def abortParticipant (p : Participant) (e : Exc) : Nat × Participant :=
  abortLocked p e

/-- The effective reclaim target computed at the top of
`ArbitrationParticipant::reclaim`:
`max(targetBytes, max(minReclaimBytes, capacity * minReclaimPct))`. -/
def effectiveReclaimTarget (p : Participant) (targetBytes : Nat) : Nat :=
  max targetBytes
    (max p.config.minReclaimBytes
      (ratioMul p.pool.capacity p.config.minReclaimPct))

/-- The externally determined outcome of the `pool_->reclaim(...)` callback
for one call: either reclaimed bytes plus the pool state it leaves behind, or
an exception (also with the pool state at the moment of the throw). -/
inductive PoolReclaimOutcome where
  | ok (bytes : Nat) (pool : MemoryPoolState)
  | exc (code : Nat) (pool : MemoryPoolState)
deriving DecidableEq

/-- Events of one `ArbitrationParticipant::reclaim` call, recording whether
the timed reclaim lock was acquired and which pool operations ran. -/
inductive ReclaimEvent where
  | lockAcquired
  | poolReclaimCalled (target : Nat)
  | shrinkCalled
deriving DecidableEq

/-- `ArbitrationParticipant::reclaim(targetBytes, maxWaitTimeNs, stats)`,
which is `noexcept`: every exception raised inside the `try` block — the
timed-lock timeout, a throw from `pool_->reclaim`, or a throw from the
subsequent `shrink` — is caught and converted into `abortLocked` on this
participant.  `lockOk` says whether the timed lock is acquired within
`maxWaitTimeNs`; `outcome` is the external pool-reclaim result; `shrinkExc`
is the error when the subsequent shrink throws.  Returns the reclaimed
capacity, the new participant state, and the event trace. -/
def reclaimParticipant (p : Participant) (targetBytes : Nat) (lockOk : Bool)
    (outcome : PoolReclaimOutcome) (shrinkExc : Option Nat) :
    Nat × Participant × List ReclaimEvent :=
  let target := effectiveReclaimTarget p targetBytes
  if target = 0 then (0, p, [])
  else if lockOk = false then
    let r := abortLocked p Exc.arbitrationTimeout
    (r.1, r.2, [])
  else
    let p1 := { p with numReclaims := p.numReclaims + 1 }
    match outcome with
    | .exc e poolAfter =>
      let r := abortLocked { p1 with pool := poolAfter } (Exc.poolError e)
      (r.1, r.2, [.lockAcquired, .poolReclaimCalled target])
    | .ok _ poolAfter =>
      let p2 := { p1 with pool := poolAfter }
      match shrinkExc with
      | some e =>
        let r := abortLocked p2 (Exc.poolError e)
        (r.1, r.2,
          [.lockAcquired, .poolReclaimCalled target, .shrinkCalled])
      | none =>
        let r := shrinkLocked p2 false
        (r.1, r.2,
          [.lockAcquired, .poolReclaimCalled target, .shrinkCalled])

/-! ### HashBuild (velox/exec/HashBuild.cpp) -/

/-- The join types distinguished by the predicates HashBuild consults
(core::JoinType). -/
inductive JoinType where
  | inner
  | left
  | right
  | full
  | leftSemiFilter
  | leftSemiProject
  | rightSemiFilter
  | rightSemiProject
  | anti
deriving DecidableEq

def isAntiJoin : JoinType → Bool
  | .anti => true
  | _ => false

def isRightJoin : JoinType → Bool
  | .right => true
  | _ => false

def isFullJoin : JoinType → Bool
  | .full => true
  | _ => false

def isRightSemiProjectJoin : JoinType → Bool
  | .rightSemiProject => true
  | _ => false

def isLeftSemiFilterJoin : JoinType → Bool
  | .leftSemiFilter => true
  | _ => false

def isLeftSemiProjectJoin : JoinType → Bool
  | .leftSemiProject => true
  | _ => false

/-- `HashBuild::State`. -/
inductive HBState where
  | running
  | yield
  | waitForBuild
  | waitForProbe
  | finish
deriving DecidableEq

/-- The state of one `HashBuild` operator, restricted to the fields the
claims touch.  `hasSpiller` models `spiller_ != nullptr`; `canSpill`,
`tableRows`, `spillInputCalls`, `spilled`, `tableCleared` and
`memoryReleased` track the operator's spill/table side effects; the memory
reservation bookkeeping of `ensureInputFits` and the per-partition routing of
`spillInput` are abstracted (they do not affect the settled claims). -/
structure HashBuild where
  joinType : JoinType
  nullAware : Bool
  hasFilter : Bool
  state : HBState
  joinHasNullKeys : Bool
  noMoreInputCalled : Bool
  tableRows : Nat
  spillInputCalls : Nat
  nonReclaimableSection : Bool
  stateCleared : Bool
  hasSpiller : Bool
  spillerFinalized : Bool
  exceededMaxSpillLevelLimit : Bool
  canSpill : Bool
  spilled : Bool
  tableCleared : Bool
  memoryReleased : Bool
deriving DecidableEq

/-- `isLeftNullAwareJoinWithFilter(joinNode)` (velox/exec, used by
`HashBuild::addInput`): a null-aware left semi or anti join carrying an extra
filter. -/
def isLeftNullAwareJoinWithFilter (s : HashBuild) : Bool :=
  (isLeftSemiFilterJoin s.joinType || isLeftSemiProjectJoin s.joinType ||
      isAntiJoin s.joinType) &&
    s.nullAware && s.hasFilter

/-- An input batch, abstracted to its row count and the number of rows with at
least one null join key. -/
structure InputBatch where
  size : Nat
  nullKeyRows : Nat
deriving DecidableEq

/-- `HashBuild::addInput(input)`.  `none` when `checkRunning()` fails.  The
embedding follows the source's order: decode keys; deselect null-key rows
(for all but right/full/right-semi-project/left-null-aware-with-filter joins)
setting `joinHasNullKeys_` for null-aware joins; for a null-aware anti join
without extra filter that has seen a null key, call `noMoreInput()` and
return before any spilling or table insertion; otherwise run `spillInput` and
store the still-active rows into the row container (partition routing and
the filter-null pruning of `removeInputRowsForAntiJoinFilter` are
abstracted: all still-selected rows count as stored). -/
def HashBuild.addInput (s : HashBuild) (input : InputBatch) :
    Option HashBuild :=
  if s.state ≠ HBState.running then none
  else
    let deselectNulls :=
      !isRightJoin s.joinType && !isFullJoin s.joinType &&
        !isRightSemiProjectJoin s.joinType &&
        !isLeftNullAwareJoinWithFilter s
    let selected :=
      if deselectNulls then input.size - input.nullKeyRows else input.size
    let nullSeen :=
      if deselectNulls then decide (selected < input.size)
      else decide (0 < input.nullKeyRows)
    let s1 :=
      { s with joinHasNullKeys :=
          s.joinHasNullKeys || (s.nullAware && nullSeen) }
    let continued :=
      { s1 with
        spillInputCalls := s1.spillInputCalls + 1
        tableRows := s1.tableRows + selected }
    if isAntiJoin s1.joinType && s1.hasFilter then some continued
    else if isAntiJoin s1.joinType && s1.nullAware && s1.joinHasNullKeys then
      some { s1 with noMoreInputCalled := true }
    else some continued

/-- What `HashBuild::finishHashBuild` did on the last build driver:
whether `joinBridge_->setAntiJoinHasNullKeys()` was called, and whether the
merged table build (`table_->prepareJoinTable`) ran. -/
structure FinishOutcome where
  antiJoinHasNullKeysMarked : Bool
  tableMerged : Bool
deriving DecidableEq

/-- `HashBuild::finishHashBuild()` on the last driver of the build pipeline
(`allPeersFinished` returned true), with `peerNullFlags` the
`joinHasNullKeys_` flags of the peer build operators in loop order.  For a
null-aware anti join without extra filter, an own or peer null key marks the
bridge and returns before any merge work; otherwise the peers' tables and
spill partitions are collected and merged (the merge itself is abstracted to
the `tableMerged` flag). -/
def HashBuild.finishHashBuild (s : HashBuild) (peerNullFlags : List Bool) :
    FinishOutcome :=
  if s.joinHasNullKeys && isAntiJoin s.joinType && s.nullAware &&
      !s.hasFilter then
    { antiJoinHasNullKeysMarked := true, tableMerged := false }
  else if (isAntiJoin s.joinType && s.nullAware && !s.hasFilter) &&
      peerNullFlags.any (fun b => b) then
    { antiJoinHasNullKeysMarked := true, tableMerged := false }
  else
    { antiJoinHasNullKeysMarked := false, tableMerged := true }

/-- `HashBuild::nonReclaimableState()`: not in a reclaimable lifecycle state,
inside a non-reclaimable section, the spiller handed off (`!spiller_`), or
the spiller already finalized. -/
def HashBuild.nonReclaimableState (s : HashBuild) : Bool :=
  (decide (s.state ≠ HBState.running) &&
      decide (s.state ≠ HBState.waitForBuild) &&
      decide (s.state ≠ HBState.yield)) ||
    s.nonReclaimableSection || !s.hasSpiller || s.spillerFinalized

/-- Result of one `HashBuild::reclaim` call: the post states of the peer
build operators (including the callee), the delta added to
`stats.numNonReclaimableAttempts`, and whether the spill was performed. -/
structure BuildReclaimResult where
  operators : List HashBuild
  numNonReclaimableAttempts : Nat
  spillPerformed : Bool
deriving DecidableEq

/-- The peer loop of `HashBuild::reclaim`: `none` when a peer fails the
`VELOX_CHECK(buildOp->canSpill())`, `some true` at the first peer in a
non-reclaimable state (the loop returns there, after one diagnostic
increment), `some false` when every peer is reclaimable. -/
def checkPeers : List HashBuild → Option Bool
  | [] => some false
  | op :: rest =>
    if op.canSpill = false then none
    else if op.nonReclaimableState then some true
    else checkPeers rest

/-- The per-operator effect of the spill phase of `HashBuild::reclaim`:
`spillHashJoinTable` spills the operator's table content, then its table is
cleared and its pool released. -/
def spillPeer (op : HashBuild) : HashBuild :=
  { op with spilled := true, tableCleared := true, memoryReleased := true }

/-- `HashBuild::reclaim(targetBytes, stats)`.  `none` models a fatal
`VELOX_CHECK` failure (`canSpill()`, `!nonReclaimableSection_`, the task
`pauseRequested()` check, or a peer failing `canSpill()`).  The
spill-level-exceeded refusal only logs; the non-reclaimable-state refusals
increment `numNonReclaimableAttempts` once; otherwise every peer operator's
table content is spilled, its table cleared, and its memory released. -/
def HashBuild.reclaim (s : HashBuild) (operators : List HashBuild)
    (pauseRequested : Bool) : Option BuildReclaimResult :=
  if s.canSpill = false then none
  else if s.nonReclaimableSection then none
  else if s.exceededMaxSpillLevelLimit then
    some { operators := operators, numNonReclaimableAttempts := 0,
           spillPerformed := false }
  else if s.nonReclaimableState then
    some { operators := operators, numNonReclaimableAttempts := 1,
           spillPerformed := false }
  else if pauseRequested = false then none
  else
    match checkPeers operators with
    | none => none
    | some true =>
      some { operators := operators, numNonReclaimableAttempts := 1,
             spillPerformed := false }
    | some false =>
      some { operators := operators.map spillPeer,
             numNonReclaimableAttempts := 0, spillPerformed := true }

/-! ### Helper lemmas -/

theorem maxShrinkCapacity_le_freeBytes (p : Participant) :
    maxShrinkCapacity p ≤ p.pool.freeBytes := by
  unfold maxShrinkCapacity
  split
  · dsimp only
    split <;> omega
  · exact Nat.le_refl _

/-! ### Claim theorems -/

/-- Claim C9: for every participant and pool state,
`reclaimableFreeCapacity()` is at most the pool's `freeBytes()`, and
`reclaimableUsedCapacity()` is at most the pool-reported `reclaimableBytes()`
(an absent report counting as 0). -/
theorem reclaimable_capacity_bounds (p : Participant) :
    reclaimableFreeCapacity p ≤ p.pool.freeBytes ∧
    reclaimableUsedCapacity p ≤ p.pool.reclaimableBytes.getD 0 :=
  ⟨Nat.le_trans (Nat.min_le_left _ _) (maxShrinkCapacity_le_freeBytes p),
    Nat.min_le_right _ _⟩

/-- Claim C8: a participant with `minCapacity` 16MB whose pool reports
capacity 64MB, `reservedBytes == 0`, `peakBytes > 0` and `freeBytes` 64MB is
inactive, so `reclaimableFreeCapacity()` is the full 64MB, as are the shrink
bound and the reclaimable bound. -/
theorem scenario1_reclaimableFreeCapacity (p : Participant)
    (hmin : p.config.minCapacity = 16777216)
    (hcap : p.pool.capacity = 67108864)
    (hres : p.pool.reservedBytes = 0)
    (hpeak : p.pool.peakBytes ≠ 0)
    (hfree : p.pool.freeBytes = 67108864) :
    reclaimableFreeCapacity p = 67108864 ∧
    maxShrinkCapacity p = 67108864 ∧
    maxReclaimableCapacity p = 67108864 := by
  have hin : inactivePool p = true := by
    simp [inactivePool, hres, hpeak]
  refine ⟨?_, ?_, ?_⟩ <;>
    simp [reclaimableFreeCapacity, maxShrinkCapacity, maxReclaimableCapacity,
      hin, hcap, hfree]

/-- A config with every knob disabled. -/
def zeroConfig : Config :=
  { initCapacity := 0, minCapacity := 0,
    fastExponentialGrowthCapacityLimit := 0,
    slowCapacityGrowRatio := ⟨0, 1⟩,
    minFreeCapacity := 0, minFreeCapacityRatio := ⟨0, 1⟩,
    minReclaimBytes := 0, minReclaimPct := ⟨0, 1⟩ }

/-- A quiescent pool with the given capacity, free bytes, reserved and peak
bytes. -/
def mkPool (cap free res peak : Nat) : MemoryPoolState :=
  { capacity := cap, freeBytes := free, reservedBytes := res,
    peakBytes := peak, reclaimableBytes := none, aborted := false,
    abortError := none }

/-- A participant with the given config, max capacity and pool, no admission
or stats activity. -/
def mkParticipant (cfg : Config) (maxCap : Nat) (pool : MemoryPoolState) :
    Participant :=
  { config := cfg, maxCapacity := maxCap, pool := pool, aborted := false,
    numRequests := 0, numReclaims := 0, numShrinks := 0, numGrows := 0,
    reclaimedBytes := 0, growBytes := 0, runningOp := none, waitOps := [] }

/-- Witness for the C8 theorem: the concrete participant of Scenario 1. -/
theorem scenario1_reclaimableFreeCapacity_witness :
    reclaimableFreeCapacity
        (mkParticipant { zeroConfig with minCapacity := 16777216 } 134217728
          (mkPool 67108864 67108864 0 1)) = 67108864 :=
  (scenario1_reclaimableFreeCapacity
    (mkParticipant { zeroConfig with minCapacity := 16777216 } 134217728
      (mkPool 67108864 67108864 0 1))
    rfl rfl rfl (by decide) rfl).1

/-- The concrete participant refuting claim C1's `max` floor: an active pool
(`reservedBytes == 1`) with capacity 4 and free bytes 4, configured with
`minFreeCapacity = 8` and `minFreeCapacityRatio = 1/2`. -/
def participantC1 : Participant :=
  mkParticipant
    { zeroConfig with minFreeCapacity := 8, minFreeCapacityRatio := ⟨1, 2⟩ }
    100 (mkPool 4 4 1 1)

/-- Counterexample to claim C1 as stated: the source computes the shrink
floor as `std::min(capacity * minFreeCapacityRatio, minFreeCapacity)`, not
the `max` the claim asserts.  Here the pool is active, `minFreeCapacity = 8`
is non-zero and the config passes the constructor checks; the claim's floor
is `max(8, 4*1/2) = 8 ≥ freeBytes = 4`, so the claim predicts `0`, but
`maxShrinkCapacity()` returns `freeBytes - min(8, 2) = 2`. -/
theorem maxShrinkCapacity_max_floor_counterexample :
    participantC1.config.valid ∧
    inactivePool participantC1 = false ∧
    participantC1.config.minFreeCapacity ≠ 0 ∧
    maxShrinkCapacitySpecMax participantC1 = 0 ∧
    maxShrinkCapacity participantC1 = 2 := by
  refine ⟨?_, by decide, by decide, by decide, by decide⟩
  unfold Config.valid
  decide

/-- Claim C1, amended (the floor is the `min`, not the `max`, of
`minFreeCapacity` and `capacity * minFreeCapacityRatio`): for a non-inactive
pool with non-zero `minFreeCapacity`, `maxShrinkCapacity()` is `freeBytes`
minus that floor when `freeBytes` exceeds the floor, else `0`; when the pool
is inactive or `minFreeCapacity` is `0`, it is all of `freeBytes`. -/
theorem maxShrinkCapacity_correct (p : Participant) :
    (p.config.minFreeCapacity ≠ 0 → inactivePool p = false →
      maxShrinkCapacity p =
        if min p.config.minFreeCapacity
            (ratioMul p.pool.capacity p.config.minFreeCapacityRatio) <
            p.pool.freeBytes then
          p.pool.freeBytes -
            min p.config.minFreeCapacity
              (ratioMul p.pool.capacity p.config.minFreeCapacityRatio)
        else 0) ∧
    (p.config.minFreeCapacity = 0 ∨ inactivePool p = true →
      maxShrinkCapacity p = p.pool.freeBytes) := by
  constructor
  · intro hmf hact
    unfold maxShrinkCapacity
    rw [if_pos ⟨hmf, hact⟩]
    dsimp only
    split <;> split <;> omega
  · intro h
    unfold maxShrinkCapacity
    rw [if_neg]
    rcases h with h | h
    · exact fun hc => hc.1 h
    · exact fun hc => by rw [h] at hc; exact absurd hc.2 (by simp)

/-- Witness for the amended C1 theorem at the concrete `participantC1`. -/
theorem maxShrinkCapacity_correct_witness :
    maxShrinkCapacity participantC1 = 2 := by
  have h := (maxShrinkCapacity_correct participantC1).1 (by decide) (by decide)
  rw [h]
  decide

/-- Claim C7: `abort()` is idempotent — on an already-aborted participant it
returns `0` and leaves the whole state, in particular the aborted flag, the
pool and every stats counter, unchanged. -/
theorem abort_idempotent (p : Participant) (e : Exc)
    (h : p.aborted = true) :
    abortParticipant p e = (0, p) ∧
    (abortParticipant p e).2.aborted = p.aborted ∧
    (abortParticipant p e).2.pool = p.pool ∧
    (abortParticipant p e).2.numRequests = p.numRequests ∧
    (abortParticipant p e).2.numReclaims = p.numReclaims ∧
    (abortParticipant p e).2.numShrinks = p.numShrinks ∧
    (abortParticipant p e).2.numGrows = p.numGrows ∧
    (abortParticipant p e).2.reclaimedBytes = p.reclaimedBytes ∧
    (abortParticipant p e).2.growBytes = p.growBytes := by
  have h0 : abortParticipant p e = (0, p) := by
    unfold abortParticipant abortLocked
    rw [if_pos h]
  exact ⟨h0, by rw [h0], by rw [h0], by rw [h0], by rw [h0], by rw [h0],
    by rw [h0], by rw [h0], by rw [h0]⟩

/-- An already-aborted participant, for the C7 witness. -/
def abortedParticipant : Participant :=
  { mkParticipant zeroConfig 100 (mkPool 0 0 0 1) with aborted := true }

/-- Witness for the C7 theorem at a concrete aborted participant. -/
theorem abort_idempotent_witness :
    abortParticipant abortedParticipant Exc.arbitrationTimeout =
      (0, abortedParticipant) :=
  (abort_idempotent abortedParticipant Exc.arbitrationTimeout rfl).1

/-- Claim C10: when the effective reclaim target
`max(targetBytes, minReclaimBytes, capacity * minReclaimPct)` is `0`,
`reclaim` returns `0` immediately: the timed reclaim lock is not acquired,
the pool's reclaim and shrink are not invoked (the event trace is empty, for
any lock and pool behaviour), and the participant — in particular
`numReclaims` and `numShrinks` — is unchanged. -/
theorem reclaim_zero_target_noop (p : Participant) (targetBytes : Nat)
    (lockOk : Bool) (outcome : PoolReclaimOutcome) (shrinkExc : Option Nat)
    (h : effectiveReclaimTarget p targetBytes = 0) :
    reclaimParticipant p targetBytes lockOk outcome shrinkExc = (0, p, []) ∧
    (reclaimParticipant p targetBytes lockOk outcome shrinkExc).2.1.numReclaims
      = p.numReclaims ∧
    (reclaimParticipant p targetBytes lockOk outcome shrinkExc).2.1.numShrinks
      = p.numShrinks := by
  have h0 : reclaimParticipant p targetBytes lockOk outcome shrinkExc
      = (0, p, []) := by
    unfold reclaimParticipant
    rw [if_pos h]
  exact ⟨h0, by rw [h0], by rw [h0]⟩

/-- Witness for the C10 theorem: a participant with every reclaim knob at
zero and a zero request target. -/
theorem reclaim_zero_target_noop_witness :
    reclaimParticipant (mkParticipant zeroConfig 100 (mkPool 8 8 1 1)) 0 true
        (PoolReclaimOutcome.ok 0 (mkPool 8 8 1 1)) none =
      (0, mkParticipant zeroConfig 100 (mkPool 8 8 1 1), []) :=
  (reclaim_zero_target_noop (mkParticipant zeroConfig 100 (mkPool 8 8 1 1)) 0
    true (PoolReclaimOutcome.ok 0 (mkPool 8 8 1 1)) none (by decide)).1

/-- Claim C3: if the pool's reclaim callback (or the subsequent shrink)
throws, the exception does not escape `reclaim` (the embedding returns a
plain value, mirroring the C++ `noexcept` catch-all): the participant is
aborted with that exception — aborted flags set, the error recorded on the
pool — and `reclaim` returns exactly the capacity the abort's force-shrink
frees, namely all free bytes of the pool at the moment of the abort. -/
theorem reclaim_exception_aborts (p : Participant) (targetBytes e b : Nat)
    (poolAfter : MemoryPoolState) (outcome : PoolReclaimOutcome)
    (shrinkExc : Option Nat)
    (heff : effectiveReclaimTarget p targetBytes ≠ 0)
    (halive : p.aborted = false)
    (hthrow : outcome = PoolReclaimOutcome.exc e poolAfter ∨
      (outcome = PoolReclaimOutcome.ok b poolAfter ∧ shrinkExc = some e)) :
    (reclaimParticipant p targetBytes true outcome shrinkExc).2.1.aborted
        = true ∧
    (reclaimParticipant p targetBytes true outcome shrinkExc).2.1.pool.aborted
        = true ∧
    (reclaimParticipant p targetBytes true outcome
        shrinkExc).2.1.pool.abortError = some (Exc.poolError e).code ∧
    (reclaimParticipant p targetBytes true outcome shrinkExc).1
        = poolAfter.freeBytes ∧
    (reclaimParticipant p targetBytes true outcome
        shrinkExc).2.1.pool.freeBytes = 0 := by
  have habort : ∀ q : Participant, q.aborted = false →
      abortLocked q (Exc.poolError e) =
        (q.pool.freeBytes,
          { q with
            aborted := true
            pool :=
              { q.pool with
                aborted := true
                abortError := some (Exc.poolError e).code
                capacity := q.pool.capacity - q.pool.freeBytes
                freeBytes := q.pool.freeBytes - q.pool.freeBytes }
            numShrinks := q.numShrinks + 1
            reclaimedBytes := q.reclaimedBytes + q.pool.freeBytes }) := by
    intro q hq
    unfold abortLocked shrinkLocked MemoryPoolState.shrink
      MemoryPoolState.abortPool
    rw [if_neg (by simp [hq])]
    simp
  rcases hthrow with h | ⟨h, hs⟩ <;> subst h
  · unfold reclaimParticipant
    rw [if_neg heff]
    simp only [Bool.true_eq_false, if_false]
    rw [habort
      { p with pool := poolAfter, numReclaims := p.numReclaims + 1 } halive]
    simp
  · subst hs
    unfold reclaimParticipant
    rw [if_neg heff]
    simp only [Bool.true_eq_false, if_false]
    rw [habort
      { p with pool := poolAfter, numReclaims := p.numReclaims + 1 } halive]
    simp

/-- A live participant with `minReclaimBytes = 5`, for the C3 witness. -/
def participantC3 : Participant :=
  mkParticipant { zeroConfig with minReclaimBytes := 5 } 100 (mkPool 8 8 1 1)

/-- Witness for the C3 theorem: a pool-reclaim throw with error code 7
aborts the participant and returns its 8 free bytes. -/
theorem reclaim_exception_aborts_witness :
    (reclaimParticipant participantC3 0 true
        (PoolReclaimOutcome.exc 7 (mkPool 8 8 1 1)) none).2.1.aborted
        = true ∧
    (reclaimParticipant participantC3 0 true
        (PoolReclaimOutcome.exc 7 (mkPool 8 8 1 1)) none).2.1.pool.aborted
        = true ∧
    (reclaimParticipant participantC3 0 true
        (PoolReclaimOutcome.exc 7 (mkPool 8 8 1 1)) none).2.1.pool.abortError
        = some (Exc.poolError 7).code ∧
    (reclaimParticipant participantC3 0 true
        (PoolReclaimOutcome.exc 7 (mkPool 8 8 1 1)) none).1
        = (mkPool 8 8 1 1).freeBytes ∧
    (reclaimParticipant participantC3 0 true
        (PoolReclaimOutcome.exc 7 (mkPool 8 8 1 1)) none).2.1.pool.freeBytes
        = 0 :=
  reclaim_exception_aborts participantC3 0 7 0 (mkPool 8 8 1 1)
    (PoolReclaimOutcome.exc 7 (mkPool 8 8 1 1)) none (by decide) rfl
    (Or.inl rfl)

/-- Claim C2: `getGrowTargets(requestBytes)` — under the constructor check
`minCapacity ≤ maxCapacity`, the `VELOX_CHECK_LE(capacity, maxCapacity)`
guard, and a request within `maxGrowCapacity()` — succeeds and produces
`maxGrowBytes` equal to `requestBytes` when no growth policy is configured,
otherwise the current capacity (doubling) while `2 * capacity` is at most
`fastExponentialGrowthCapacityLimit` and `capacity * slowCapacityGrowRatio`
beyond that, then raised to at least `requestBytes` and at least
`minGrowCapacity()` and capped at `maxGrowCapacity()`; whenever the call
produces results they satisfy `minGrowBytes ≤ maxGrowBytes` and
`requestBytes ≤ maxGrowBytes`. -/
theorem getGrowTargets_spec (p : Participant) (requestBytes : Nat)
    (hcap : p.pool.capacity ≤ p.maxCapacity)
    (hmin : p.config.minCapacity ≤ p.maxCapacity)
    (hreq : requestBytes ≤ maxGrowCapacity p) :
    getGrowTargets p requestBytes =
      some (min (maxGrowCapacity p)
        (max (max requestBytes
          (if p.config.fastExponentialGrowthCapacityLimit = 0 ∧
              p.config.slowCapacityGrowRatio.num = 0 then requestBytes
            else if p.pool.capacity * 2 ≤
                p.config.fastExponentialGrowthCapacityLimit then
              p.pool.capacity
            else ratioMul p.pool.capacity p.config.slowCapacityGrowRatio))
          (minGrowCapacity p)),
        minGrowCapacity p) ∧
    ∀ mx mn, getGrowTargets p requestBytes = some (mx, mn) →
      mn ≤ mx ∧ requestBytes ≤ mx := by
  have hle : minGrowCapacity p ≤ maxGrowCapacity p := by
    unfold minGrowCapacity maxGrowCapacity
    split <;> omega
  constructor
  · unfold getGrowTargets
    rw [if_pos]
    constructor
    · exact le_min hle (le_max_right _ _)
    · exact le_min hreq (le_trans (le_max_left _ _) (le_max_left _ _))
  · intro mx mn hmx
    unfold getGrowTargets at hmx
    rw [if_pos] at hmx
    · simp only [Option.some.injEq, Prod.mk.injEq] at hmx
      obtain ⟨rfl, rfl⟩ := hmx
      exact ⟨le_min hle (le_max_right _ _),
        le_min hreq (le_trans (le_max_left _ _) (le_max_left _ _))⟩
    · exact ⟨le_min hle (le_max_right _ _),
        le_min hreq (le_trans (le_max_left _ _) (le_max_left _ _))⟩

/-- The concrete participant for the C2 witness: no growth policy, max
capacity 10, current capacity 4. -/
def participantC2 : Participant :=
  mkParticipant zeroConfig 10 (mkPool 4 4 1 1)

/-- Witness for the C2 theorem: requesting 3 bytes yields
`(maxGrowBytes, minGrowBytes) = (3, 0)`. -/
theorem getGrowTargets_spec_witness :
    getGrowTargets participantC2 3 = some (3, 0) := by
  have h := (getGrowTargets_spec participantC2 3 (by decide) (by decide)
    (by decide)).1
  rw [h]
  decide

theorem resumedOp_of_no_running (p : Participant) (h : p.runningOp = none)
    (k : Nat) : resumedOp p k = none := by
  cases k with
  | zero => simp [resumedOp, finishSteps, finishCurrent, h]
  | succ n => simp [resumedOp, finishSteps, finishCurrent, h]

theorem finishSteps_succ (p p' : Participant) (x : Option Nat)
    (h : finishCurrent p = some (p', x)) (n : Nat) :
    finishSteps p (n + 1) = finishSteps p' n := by
  show (finishCurrent p).bind (fun r => finishSteps r.1 n) = finishSteps p' n
  rw [h, Option.some_bind]

theorem resumedOp_succ (p p' : Participant) (x : Option Nat)
    (h : finishCurrent p = some (p', x)) (n : Nat) :
    resumedOp p (n + 1) = resumedOp p' n := by
  unfold resumedOp
  rw [finishSteps_succ p p' x h n]

theorem resumedOp_eq_waitOps (k : Nat) :
    ∀ p : Participant, p.runningOp.isSome →
      resumedOp p k = p.waitOps[k]? := by
  induction k with
  | zero =>
    intro p hp
    obtain ⟨op, hop⟩ := Option.isSome_iff_exists.mp hp
    cases hw : p.waitOps with
    | nil =>
      simp [resumedOp, finishSteps, finishCurrent, finishArbitration, hop, hw]
    | cons w rest =>
      simp [resumedOp, finishSteps, finishCurrent, finishArbitration, hop, hw]
  | succ n ih =>
    intro p hp
    obtain ⟨op, hop⟩ := Option.isSome_iff_exists.mp hp
    have hcur : finishCurrent p = finishArbitration p op := by
      unfold finishCurrent
      rw [hop]
    cases hw : p.waitOps with
    | nil =>
      have hfin : finishArbitration p op =
          some ({ p with runningOp := none }, none) := by
        unfold finishArbitration
        rw [if_pos hop, hw]
      rw [resumedOp_succ p { p with runningOp := none } none
          (hcur.trans hfin) n,
        resumedOp_of_no_running _ rfl]
      simp [hw]
    | cons w rest =>
      have hfin : finishArbitration p op =
          some ({ p with runningOp := some w, waitOps := rest }, some w) := by
        unfold finishArbitration
        rw [if_pos hop, hw]
      rw [resumedOp_succ p { p with runningOp := some w, waitOps := rest }
          (some w) (hcur.trans hfin) n,
        ih _ (by simp)]
      simp [hw]

/-- Claim C4: admission per participant is strict FIFO.  While an operation
`c` runs, `startArbitration` blocks each newcomer and appends it to the wait
queue, so starting `a` then `b` leaves the queue `waitOps ++ [a, b]`;
`finishArbitration` of the running operation promotes exactly the front of
the wait queue (or clears `runningOp` on an empty queue); consequently the
operation resumed by the `(k+1)`-th finish is the `k`-th queued one, so `a`
resumes strictly before `b`. -/
theorem admission_fifo (p0 : Participant) (c a b : Nat)
    (hrun : p0.runningOp = some c) :
    (startArbitration p0 a).2 = true ∧
    (startArbitration (startArbitration p0 a).1 b).2 = true ∧
    (startArbitration (startArbitration p0 a).1 b).1.waitOps
      = p0.waitOps ++ [a, b] ∧
    (∀ q : Participant, ∀ op, q.runningOp = some op →
      (q.waitOps = [] → finishArbitration q op =
        some ({ q with runningOp := none }, none)) ∧
      (∀ w rest, q.waitOps = w :: rest → finishArbitration q op =
        some ({ q with runningOp := some w, waitOps := rest }, some w))) ∧
    resumedOp (startArbitration (startArbitration p0 a).1 b).1
      p0.waitOps.length = some a ∧
    resumedOp (startArbitration (startArbitration p0 a).1 b).1
      (p0.waitOps.length + 1) = some b := by
  have h1 : startArbitration p0 a =
      ({ p0 with
          numRequests := p0.numRequests + 1
          waitOps := p0.waitOps ++ [a] }, true) := by
    unfold startArbitration
    rw [hrun]
  have h2 : startArbitration (startArbitration p0 a).1 b =
      ({ p0 with
          numRequests := p0.numRequests + 1 + 1
          waitOps := p0.waitOps ++ [a, b] }, true) := by
    rw [h1]
    unfold startArbitration
    rw [hrun]
    simp
  have hpr : (startArbitration (startArbitration p0 a).1 b).1.runningOp.isSome
      = true := by
    rw [h2]
    simp [hrun]
  refine ⟨by rw [h1], by rw [h2], by rw [h2], ?_, ?_, ?_⟩
  · intro q op hop
    constructor
    · intro hw
      unfold finishArbitration
      rw [if_pos hop, hw]
    · intro w rest hw
      unfold finishArbitration
      rw [if_pos hop, hw]
  · rw [resumedOp_eq_waitOps _ _ hpr, h2]
    show (p0.waitOps ++ [a, b])[p0.waitOps.length]? = some a
    rw [List.getElem?_append_right (Nat.le_refl _)]
    simp
  · rw [resumedOp_eq_waitOps _ _ hpr, h2]
    show (p0.waitOps ++ [a, b])[p0.waitOps.length + 1]? = some b
    rw [List.getElem?_append_right (by omega)]
    simp

/-- A participant running operation `0` with an empty wait queue, for the C4
witness. -/
def participantFifo : Participant :=
  { mkParticipant zeroConfig 100 (mkPool 4 4 1 1) with runningOp := some 0 }

/-- Witness for the C4 theorem: after starting operations `1` then `2`
behind the running operation `0`, the first finish resumes `1` and the
second resumes `2`. -/
theorem admission_fifo_witness :
    resumedOp (startArbitration (startArbitration participantFifo 1).1 2).1
        participantFifo.waitOps.length = some 1 ∧
    resumedOp (startArbitration (startArbitration participantFifo 1).1 2).1
        (participantFifo.waitOps.length + 1) = some 2 := by
  have h := admission_fifo participantFifo 0 1 2 rfl
  exact ⟨h.2.2.2.2.1, h.2.2.2.2.2⟩

/-- Claim C5: for a null-aware anti join without an extra filter, as soon as
`addInput` observes a null build key it calls `noMoreInput()` and returns
without processing further input — no spill routing, no table insertion —
and `finishHashBuild`, when this driver or any peer driver has observed a
null key, marks the join bridge as anti-join-has-null-keys and returns
before performing any table merge, regardless of the peers' pending
contents. -/
theorem nullAwareAnti_shortCircuit (s t : HashBuild) (input : InputBatch)
    (peerNullFlags : List Bool)
    (hanti : s.joinType = JoinType.anti) (hna : s.nullAware = true)
    (hnf : s.hasFilter = false) (hrun : s.state = HBState.running)
    (hle : input.nullKeyRows ≤ input.size) (hnull : 0 < input.nullKeyRows)
    (tanti : t.joinType = JoinType.anti) (tna : t.nullAware = true)
    (tnf : t.hasFilter = false)
    (tnull : t.joinHasNullKeys = true ∨
      peerNullFlags.any (fun x => x) = true) :
    (∃ s', s.addInput input = some s' ∧ s'.noMoreInputCalled = true ∧
      s'.joinHasNullKeys = true ∧ s'.tableRows = s.tableRows ∧
      s'.spillInputCalls = s.spillInputCalls) ∧
    (t.finishHashBuild peerNullFlags).antiJoinHasNullKeysMarked = true ∧
    (t.finishHashBuild peerNullFlags).tableMerged = false := by
  have hlt : input.size - input.nullKeyRows < input.size := by omega
  constructor
  · refine ⟨{ { s with joinHasNullKeys := true } with
      noMoreInputCalled := true }, ?_, by simp, by simp, by simp, by simp⟩
    unfold HashBuild.addInput
    rw [if_neg (by simp [hrun])]
    simp [hanti, hna, hnf, isAntiJoin, isRightJoin, isFullJoin,
      isRightSemiProjectJoin, isLeftNullAwareJoinWithFilter, hlt]
  · unfold HashBuild.finishHashBuild
    rcases tnull with hfl | hany
    · rw [if_pos (by simp [hfl, tanti, tna, tnf, isAntiJoin])]
      exact ⟨rfl, rfl⟩
    · by_cases hfl : t.joinHasNullKeys
      · rw [if_pos (by simp [hfl, tanti, tna, tnf, isAntiJoin])]
        exact ⟨rfl, rfl⟩
      · rw [if_neg (by simp [hfl]),
          if_pos (by simp [hany, tanti, tna, tnf, isAntiJoin])]
        exact ⟨rfl, rfl⟩

/-- A running null-aware anti-join build operator with no extra filter and a
healthy spiller. -/
def hashBuildAnti : HashBuild :=
  { joinType := JoinType.anti, nullAware := true, hasFilter := false,
    state := HBState.running, joinHasNullKeys := false,
    noMoreInputCalled := false, tableRows := 3, spillInputCalls := 0,
    nonReclaimableSection := false, stateCleared := false, hasSpiller := true,
    spillerFinalized := false, exceededMaxSpillLevelLimit := false,
    canSpill := true, spilled := false, tableCleared := false,
    memoryReleased := false }

/-- Witness for the C5 theorem: a batch with one null-key row short-circuits
`addInput`, and a peer null flag makes `finishHashBuild` mark the bridge
without merging. -/
theorem nullAwareAnti_shortCircuit_witness :
    (∃ s', hashBuildAnti.addInput ⟨1, 1⟩ = some s' ∧
      s'.noMoreInputCalled = true ∧ s'.joinHasNullKeys = true ∧
      s'.tableRows = hashBuildAnti.tableRows ∧
      s'.spillInputCalls = hashBuildAnti.spillInputCalls) ∧
    (hashBuildAnti.finishHashBuild [true]).antiJoinHasNullKeysMarked
        = true ∧
    (hashBuildAnti.finishHashBuild [true]).tableMerged = false :=
  nullAwareAnti_shortCircuit hashBuildAnti hashBuildAnti ⟨1, 1⟩ [true] rfl rfl
    rfl rfl (by decide) (by decide) rfl rfl rfl (Or.inr (by decide))

theorem checkPeers_eq_any (ops : List HashBuild)
    (h : ∀ op ∈ ops, op.canSpill = true) :
    checkPeers ops = some (ops.any fun op => op.nonReclaimableState) := by
  induction ops with
  | nil => simp [checkPeers]
  | cons op rest ih =>
    have hop : op.canSpill = true := h op (by simp)
    have hrest : ∀ o ∈ rest, o.canSpill = true :=
      fun o ho => h o (by simp [ho])
    by_cases hnr : op.nonReclaimableState = true
    · simp [checkPeers, hop, hnr]
    · simp only [Bool.not_eq_true] at hnr
      simp [checkPeers, hop, hnr, ih hrest]

/-- The build operator refuting the diagnostic part of claim C6: reclaimable
in every respect except that the max spill level was exceeded. -/
def hashBuildSpillLimit : HashBuild :=
  { hashBuildAnti with exceededMaxSpillLevelLimit := true }

/-- Counterexample to claim C6 as stated: when the max spill level was
exceeded, `reclaim` refuses — every operator's table and spiller untouched,
nothing spilled — but only logs a warning: `numNonReclaimableAttempts` is
not incremented, contrary to the claim that every refusal records the
non-reclaimable-attempt diagnostic. -/
theorem hashBuildReclaim_spillLimit_counterexample :
    HashBuild.reclaim hashBuildSpillLimit [hashBuildSpillLimit] true =
      some { operators := [hashBuildSpillLimit],
             numNonReclaimableAttempts := 0, spillPerformed := false } ∧
    hashBuildSpillLimit.exceededMaxSpillLevelLimit = true ∧
    hashBuildSpillLimit.nonReclaimableState = false := by
  refine ⟨?_, rfl, rfl⟩
  decide

/-- Claim C6, amended: `reclaim` refuses, leaving every operator's table and
spiller untouched, if the max spill level was exceeded (only logging, no
diagnostic recorded) or if this operator or any peer build operator is in a
non-reclaimable state (recording one non-reclaimable-attempt diagnostic);
otherwise it spills every peer build operator's table content, clears every
peer's table, and releases their memory. -/
theorem hashBuildReclaim_correct (s : HashBuild) (ops : List HashBuild)
    (hcs : s.canSpill = true) (hsec : s.nonReclaimableSection = false)
    (hpeers : ∀ op ∈ ops, op.canSpill = true) :
    (s.exceededMaxSpillLevelLimit = true →
      s.reclaim ops true =
        some { operators := ops, numNonReclaimableAttempts := 0,
               spillPerformed := false }) ∧
    (s.exceededMaxSpillLevelLimit = false →
      s.nonReclaimableState = true →
      s.reclaim ops true =
        some { operators := ops, numNonReclaimableAttempts := 1,
               spillPerformed := false }) ∧
    (s.exceededMaxSpillLevelLimit = false →
      s.nonReclaimableState = false →
      (∃ op ∈ ops, op.nonReclaimableState = true) →
      s.reclaim ops true =
        some { operators := ops, numNonReclaimableAttempts := 1,
               spillPerformed := false }) ∧
    (s.exceededMaxSpillLevelLimit = false →
      s.nonReclaimableState = false →
      (∀ op ∈ ops, op.nonReclaimableState = false) →
      s.reclaim ops true =
        some { operators := ops.map spillPeer,
               numNonReclaimableAttempts := 0, spillPerformed := true } ∧
      ∀ op ∈ ops.map spillPeer, op.spilled = true ∧
        op.tableCleared = true ∧ op.memoryReleased = true) := by
  refine ⟨?_, ?_, ?_, ?_⟩
  · intro hex
    unfold HashBuild.reclaim
    rw [if_neg (by simp [hcs]), if_neg (by simp [hsec]), if_pos hex]
  · intro hex hnr
    unfold HashBuild.reclaim
    rw [if_neg (by simp [hcs]), if_neg (by simp [hsec]),
      if_neg (by simp [hex]), if_pos hnr]
  · intro hex hnr hbad
    unfold HashBuild.reclaim
    rw [if_neg (by simp [hcs]), if_neg (by simp [hsec]),
      if_neg (by simp [hex]), if_neg (by simp [hnr]),
      if_neg (by simp), checkPeers_eq_any ops hpeers]
    have : (ops.any fun op => op.nonReclaimableState) = true := by
      rw [List.any_eq_true]
      obtain ⟨op, hmem, hop⟩ := hbad
      exact ⟨op, hmem, hop⟩
    rw [this]
  · intro hex hnr hgood
    have hany : (ops.any fun op => op.nonReclaimableState) = false := by
      rw [List.any_eq_false]
      intro op hmem
      simp [hgood op hmem]
    refine ⟨?_, ?_⟩
    · unfold HashBuild.reclaim
      rw [if_neg (by simp [hcs]), if_neg (by simp [hsec]),
        if_neg (by simp [hex]), if_neg (by simp [hnr]),
        if_neg (by simp), checkPeers_eq_any ops hpeers, hany]
    · intro op hmem
      obtain ⟨o, _, rfl⟩ := List.mem_map.mp hmem
      exact ⟨rfl, rfl, rfl⟩

/-- Witness for the amended C6 theorem: one healthy build operator spills,
clears its table and releases its memory. -/
theorem hashBuildReclaim_correct_witness :
    HashBuild.reclaim hashBuildAnti [hashBuildAnti] true =
      some { operators := [spillPeer hashBuildAnti],
             numNonReclaimableAttempts := 0, spillPerformed := true } := by
  have h := ((hashBuildReclaim_correct hashBuildAnti [hashBuildAnti] rfl rfl
    (by simp [hashBuildAnti])).2.2.2 rfl rfl
    (by intro op hmem; simp at hmem; subst hmem; decide)).1
  simpa using h

end Velox
